import Mathlib

/-!
Verification of the account-ledger core of `mockchain_v2`
(`src/mods/wallet.rs`, `impl Wallet`).

The persisted document at a location holds a top-level `"wallets"` array of
records with string fields `name`, `address` and an integer field `balance`.
We embed one persisted collection as a `List Wallet`; `FileOps::parse` hands
the ledger exactly this collection, so each ledger operation is a function of
the collection (plus the name/amount/op arguments), and a mutating operation
returns the collection that ends up persisted at the location.

Arithmetic in the update path is Rust `i64`: overflow wraps around modulo
`2 ^ 64` (the release-profile semantics), modelled by `wrap64`.
-/

set_option autoImplicit false

namespace Mockchain

/-- One account record of the `"wallets"` collection.  The Rust struct
declares `balance: i32`, but every record read in the ledger core goes through
`serde_json::Value` and `as_i64()`, so the stored balance is kept as an
integer here (invariantly an `i64`: creation writes an `i32`, updates write an
`i64`). -/
structure Wallet where
  name : String
  address : String
  balance : Int
  deriving Repr, DecidableEq

/-- Wrap-around of Rust `i64` arithmetic modulo `2 ^ 64`
(release-profile overflow semantics). -/
def wrap64 (x : Int) : Int :=
  (x + 2 ^ 63) % 2 ^ 64 - 2 ^ 63

/-- Representability of an integer as a Rust `i64`. -/
def in_i64 (x : Int) : Prop :=
  -(2 ^ 63) ≤ x ∧ x < 2 ^ 63

instance (x : Int) : Decidable (in_i64 x) := by
  unfold in_i64; infer_instance

/-- ASCII single quote, used in the not-found message. -/
def squote : String := String.singleton (Char.ofNat 39)

/-- Hex digit as written by serde_json (`0123456789abcdef`). -/
def hex_digit (n : Nat) : Char :=
  if n < 10 then Char.ofNat (48 + n) else Char.ofNat (87 + n)

/-- How serde_json escapes one character when serializing a JSON string:
`"` and `\` get a backslash, the named control characters get their short
escapes, the remaining control characters get `\u00xy`, and every other
character is emitted unchanged. -/
def escape_char (c : Char) : String :=
  if c = '"' then "\\\""
  else if c = '\\' then "\\\\"
  else if c.toNat = 8 then "\\b"
  else if c.toNat = 9 then "\\t"
  else if c.toNat = 10 then "\\n"
  else if c.toNat = 12 then "\\f"
  else if c.toNat = 13 then "\\r"
  else if c.toNat < 32 then
    "\\u00" ++ String.singleton (hex_digit (c.toNat / 16)) ++
      String.singleton (hex_digit (c.toNat % 16))
  else String.singleton c

/-- serde_json rendering of a string `Value`, as produced by
`wallet["address"].to_string()` in `get_wallet_address`: the contents are
escaped and wrapped in double quotes. -/
def json_render (s : String) : String :=
  "\"" ++ String.join (s.data.map escape_char) ++ "\""

/-- `Wallet::name_exists` (wallet.rs lines 49-58): linear scan of the
`"wallets"` array, `true` on the first record whose `name` equals the
argument, `false` when the scan completes without a match. -/
def name_exists (wallets : List Wallet) (name : String) : Bool :=
  match wallets with
  | [] => false
  | w :: rest => if w.name = name then true else name_exists rest name

/-- The accumulation loop of `Wallet::get_wallet_address` (lines 83-89):
`wallet_name` starts as `""` and for every matching record the serde_json
rendering of its `address` value is appended with `push_str`. -/
def addr_scan (wallets : List Wallet) (name : String) (acc : String) : String :=
  match wallets with
  | [] => acc
  | w :: rest =>
      addr_scan rest name (if w.name = name then acc ++ json_render w.address else acc)

/-- `Wallet::get_wallet_address` (lines 76-92): `none` when `name_exists`
fails, otherwise the string accumulated by the scan loop. -/
def get_wallet_address (wallets : List Wallet) (name : String) : Option String :=
  if !(name_exists wallets name) then none
  else some (addr_scan wallets name "")

/-- The scan loop of `Wallet::get_balance` (lines 150-155): the balance of the
first matching record, with `break` after the first match. -/
def bal_scan (wallets : List Wallet) (name : String) : Option Int :=
  match wallets with
  | [] => none
  | w :: rest => if w.name = name then some w.balance else bal_scan rest name

/-- `Wallet::get_balance` (lines 143-158): `none` when `name_exists` fails,
otherwise the result of the first-match scan. -/
def get_balance (wallets : List Wallet) (name : String) : Option Int :=
  if !(name_exists wallets name) then none
  else bal_scan wallets name

/-- Modelled from the spec: `FileOps::write_balance` — the Document Store
operation `update_balance` delegates its persist to.  Its source
(`src/mods/file.rs`) is not under `src/`; the spec describes it as
"persists an updated balance for the record matching `name` at `location`",
with only the first matching record updated (spec sections 4.1 and 6).  All
other records, and the `name`/`address` fields of the matched record, are
untouched. -/
def write_balance (wallets : List Wallet) (name : String) (balance : Int) : List Wallet :=
  match wallets with
  | [] => []
  | w :: rest =>
      if w.name = name then { w with balance := balance } :: rest
      else w :: write_balance rest name balance

/-- The balance computation of `Wallet::update_balance` (lines 118-120): read
the matched record's balance as an `i64`, then two independent `if`s add or
subtract `amount` with `i64` wrap-around. -/
def apply_op (op : String) (balance amount : Int) : Int :=
  let b := if op = "add" then wrap64 (balance + amount) else balance
  if op = "subtract" then wrap64 (b - amount) else b

/-- The scan loop of `Wallet::update_balance` (lines 116-124): find the first
matching record, compute the new balance from it, and report the
`FileOps::write_balance(path, name, balance)` call that the loop issues
before `break` (`none` when no record matches). -/
def upd_scan (wallets : List Wallet) (name : String) (amount : Int) (op : String) :
    Option (String × Int) :=
  match wallets with
  | [] => none
  | w :: rest =>
      if w.name = name then some (name, apply_op op w.balance amount)
      else upd_scan rest name amount op

/-- The message printed by `update_balance` when no account matches
(line 112). -/
def not_found_msg (name : String) : String :=
  "No account found for " ++ squote ++ name ++ squote

/-- Observable outcome of one `Wallet::update_balance` call: the collection
persisted at the location afterwards, the `write_balance` call made (if any),
and the console message produced (if any). -/
structure UpdateResult where
  wallets : List Wallet
  written : Option (String × Int)
  message : Option String
  deriving Repr, DecidableEq

/-- `Wallet::update_balance` (lines 110-126): when `name_exists` fails, print
the not-found message and mutate nothing; otherwise scan for the first
matching record, compute its new balance and persist it with
`FileOps::write_balance`.  The in-memory parse is discarded, so the persisted
post-state is `write_balance` applied to the pre-state. -/
def update_balance_full (wallets : List Wallet) (name : String) (amount : Int)
    (op : String) : UpdateResult :=
  if !(name_exists wallets name) then
    ⟨wallets, none, some (not_found_msg name)⟩
  else
    match upd_scan wallets name amount op with
    | none => ⟨wallets, none, none⟩
    | some (n, b) => ⟨write_balance wallets n b, some (n, b), none⟩

/-- The collection persisted after a `Wallet::update_balance` call. -/
def update_balance (wallets : List Wallet) (name : String) (amount : Int)
    (op : String) : List Wallet :=
  (update_balance_full wallets name amount op).wallets

/-- The total string accumulated by the `get_wallet_address` loop: the
concatenation, in scan order, of the serde_json renderings of the addresses
of all matching records. -/
def addrs_concat (wallets : List Wallet) (name : String) : String :=
  match wallets with
  | [] => ""
  | w :: rest =>
      (if w.name = name then json_render w.address else "") ++ addrs_concat rest name

/-! ### Helper lemmas -/

theorem name_exists_iff (wallets : List Wallet) (n : String) :
    name_exists wallets n = true ↔ ∃ w ∈ wallets, w.name = n := by
  induction wallets with
  | nil => simp [name_exists]
  | cons w rest ih =>
      by_cases h : w.name = n <;> simp [name_exists, h, ih]

theorem name_exists_false_iff (wallets : List Wallet) (n : String) :
    name_exists wallets n = false ↔ ∀ w ∈ wallets, w.name ≠ n := by
  rw [← Bool.not_eq_true, name_exists_iff]
  push_neg
  rfl

theorem name_exists_decomp (pre post : List Wallet) (w : Wallet) (n : String)
    (hw : w.name = n) : name_exists (pre ++ w :: post) n = true := by
  induction pre with
  | nil => simp [name_exists, hw]
  | cons x rest ih =>
      by_cases hx : x.name = n <;> simp [name_exists, hx, ih]

theorem bal_scan_decomp (pre post : List Wallet) (w : Wallet) (n : String)
    (hpre : ∀ x ∈ pre, x.name ≠ n) (hw : w.name = n) :
    bal_scan (pre ++ w :: post) n = some w.balance := by
  induction pre with
  | nil => simp [bal_scan, hw]
  | cons x rest ih =>
      have hx : x.name ≠ n := hpre x (by simp)
      simpa [bal_scan, hx] using ih (fun y hy => hpre y (by simp [hy]))

theorem upd_scan_decomp (pre post : List Wallet) (w : Wallet) (n : String)
    (amount : Int) (op : String)
    (hpre : ∀ x ∈ pre, x.name ≠ n) (hw : w.name = n) :
    upd_scan (pre ++ w :: post) n amount op =
      some (n, apply_op op w.balance amount) := by
  induction pre with
  | nil => simp [upd_scan, hw]
  | cons x rest ih =>
      have hx : x.name ≠ n := hpre x (by simp)
      simpa [upd_scan, hx] using ih (fun y hy => hpre y (by simp [hy]))

theorem write_balance_decomp (pre post : List Wallet) (w : Wallet) (n : String)
    (b : Int) (hpre : ∀ x ∈ pre, x.name ≠ n) (hw : w.name = n) :
    write_balance (pre ++ w :: post) n b =
      pre ++ ({ w with balance := b }) :: post := by
  induction pre with
  | nil => simp [write_balance, hw]
  | cons x rest ih =>
      have hx : x.name ≠ n := hpre x (by simp)
      simpa [write_balance, hx] using ih (fun y hy => hpre y (by simp [hy]))

theorem update_balance_full_decomp (pre post : List Wallet) (w : Wallet)
    (n : String) (amount : Int) (op : String)
    (hpre : ∀ x ∈ pre, x.name ≠ n) (hw : w.name = n) :
    update_balance_full (pre ++ w :: post) n amount op =
      ⟨pre ++ ({ w with balance := apply_op op w.balance amount }) :: post,
        some (n, apply_op op w.balance amount), none⟩ := by
  unfold update_balance_full
  rw [name_exists_decomp pre post w n hw,
      upd_scan_decomp pre post w n amount op hpre hw]
  simp [write_balance_decomp pre post w n (apply_op op w.balance amount) hpre hw]

theorem update_balance_decomp (pre post : List Wallet) (w : Wallet)
    (n : String) (amount : Int) (op : String)
    (hpre : ∀ x ∈ pre, x.name ≠ n) (hw : w.name = n) :
    update_balance (pre ++ w :: post) n amount op =
      pre ++ ({ w with balance := apply_op op w.balance amount }) :: post := by
  unfold update_balance
  rw [update_balance_full_decomp pre post w n amount op hpre hw]

theorem get_balance_decomp (pre post : List Wallet) (w : Wallet) (n : String)
    (hpre : ∀ x ∈ pre, x.name ≠ n) (hw : w.name = n) :
    get_balance (pre ++ w :: post) n = some w.balance := by
  unfold get_balance
  rw [name_exists_decomp pre post w n hw]
  simpa using bal_scan_decomp pre post w n hpre hw

theorem addr_scan_eq (wallets : List Wallet) (n : String) (acc : String) :
    addr_scan wallets n acc = acc ++ addrs_concat wallets n := by
  induction wallets generalizing acc with
  | nil => simp [addr_scan, addrs_concat, String.append_empty]
  | cons w rest ih =>
      by_cases h : w.name = n <;>
        simp [addr_scan, addrs_concat, h, ih, String.append_assoc,
          String.empty_append]

theorem addrs_concat_no_match (wallets : List Wallet) (n : String)
    (h : ∀ x ∈ wallets, x.name ≠ n) : addrs_concat wallets n = "" := by
  induction wallets with
  | nil => rfl
  | cons w rest ih =>
      have hw : w.name ≠ n := h w (by simp)
      simp [addrs_concat, hw, ih (fun y hy => h y (by simp [hy])),
        String.empty_append]

theorem addrs_concat_append (l1 l2 : List Wallet) (n : String) :
    addrs_concat (l1 ++ l2) n = addrs_concat l1 n ++ addrs_concat l2 n := by
  induction l1 with
  | nil => simp [addrs_concat, String.empty_append]
  | cons w rest ih => simp [addrs_concat, ih, String.append_assoc]

theorem get_wallet_address_eq (wallets : List Wallet) (n : String)
    (h : name_exists wallets n = true) :
    get_wallet_address wallets n = some (addrs_concat wallets n) := by
  unfold get_wallet_address
  rw [h]
  simp [addr_scan_eq, String.empty_append]

theorem bal_scan_eq_find (wallets : List Wallet) (n : String) :
    bal_scan wallets n =
      (wallets.find? (fun w => w.name == n)).map (fun w => w.balance) := by
  induction wallets with
  | nil => rfl
  | cons w rest ih =>
      by_cases h : w.name = n <;> simp [bal_scan, h, ih, List.find?_cons]

theorem bal_scan_none_of_no_match (wallets : List Wallet) (n : String)
    (h : name_exists wallets n = false) : bal_scan wallets n = none := by
  induction wallets with
  | nil => rfl
  | cons w rest ih =>
      rw [name_exists_false_iff] at h
      have hw : w.name ≠ n := h w (by simp)
      refine (if_neg hw).trans (ih ?_)
      rw [name_exists_false_iff]
      exact fun y hy => h y (by simp [hy])

theorem get_balance_eq_bal_scan (wallets : List Wallet) (n : String) :
    get_balance wallets n = bal_scan wallets n := by
  unfold get_balance
  cases h : name_exists wallets n with
  | false => simp [bal_scan_none_of_no_match wallets n h]
  | true => simp

theorem write_balance_map (wallets : List Wallet) (n : String) (b : Int) :
    (write_balance wallets n b).map (fun w => (w.name, w.address)) =
      wallets.map (fun w => (w.name, w.address)) := by
  induction wallets with
  | nil => rfl
  | cons w rest ih =>
      by_cases h : w.name = n <;> simp [write_balance, h, ih]

theorem wrap64_eq_self (x : Int) (h : in_i64 x) : wrap64 x = x := by
  obtain ⟨h1, h2⟩ := h
  unfold wrap64
  norm_num at h1 h2 ⊢
  omega

theorem wrap64_add_shift (x y : Int) : wrap64 (wrap64 x + y) = wrap64 (x + y) := by
  unfold wrap64
  norm_num
  omega

theorem wrap64_sub_shift (x y : Int) : wrap64 (wrap64 x - y) = wrap64 (x - y) := by
  unfold wrap64
  norm_num
  omega

theorem apply_op_add (b amt : Int) : apply_op "add" b amt = wrap64 (b + amt) := by
  simp [apply_op]

theorem apply_op_sub (b amt : Int) : apply_op "subtract" b amt = wrap64 (b - amt) := by
  simp [apply_op]

theorem apply_op_other (op : String) (b amt : Int) (h1 : op ≠ "add")
    (h2 : op ≠ "subtract") : apply_op op b amt = b := by
  simp [apply_op, h1, h2]

/-! ### Claim theorems -/

/-- Claim C6: `exists(location, N)` is true iff some record of the collection
has name `N`; it is false for the empty collection and false whenever no
record matches, with absence a normal boolean outcome rather than an error. -/
theorem name_exists_exact (wallets : List Wallet) (n : String) :
    (name_exists wallets n = true ↔ ∃ w ∈ wallets, w.name = n) ∧
    name_exists ([] : List Wallet) n = false :=
  ⟨name_exists_iff wallets n, rfl⟩

/-- Claim C5: `lookup_balance(location, N)` returns `none` iff no record has
name `N`; otherwise it returns the balance of the first record in scan order
whose name equals `N` (the scan breaks at the first match). -/
theorem balance_lookup_first_match (wallets : List Wallet) (n : String) :
    (get_balance wallets n = none ↔
      wallets.filter (fun w => w.name == n) = []) ∧
    get_balance wallets n =
      (wallets.find? (fun w => w.name == n)).map (fun w => w.balance) := by
  rw [get_balance_eq_bal_scan, bal_scan_eq_find]
  refine ⟨?_, rfl⟩
  rw [Option.map_eq_none', List.find?_eq_none, List.filter_eq_nil_iff]

/-- Claim C2: an `update_balance` call whose name matches no record leaves the
collection exactly as it was (no record mutated, none created), issues no
`write_balance` call, and only produces the informational not-found message —
no error is raised. -/
theorem update_missing_noop (wallets : List Wallet) (n : String) (amount : Int)
    (op : String) (h : name_exists wallets n = false) :
    update_balance_full wallets n amount op =
      ⟨wallets, none, some (not_found_msg n)⟩ := by
  unfold update_balance_full
  rw [h]
  simp

/-- Witness for claim C2 at a concrete collection and missing name. -/
theorem update_missing_noop_witness :
    update_balance_full [⟨"Alice", "addr1", 50⟩] "Bob" 5 "add" =
      ⟨[⟨"Alice", "addr1", 50⟩], none, some (not_found_msg "Bob")⟩ :=
  update_missing_noop [⟨"Alice", "addr1", 50⟩] "Bob" 5 "add" (by decide)

/-- Claim C7: when some record matches, `update_balance` rewrites exactly the
first matching record in scan order — its balance becomes the computed value,
its other fields and every other record (before or after the match) are
untouched. -/
theorem update_first_match_only (pre post : List Wallet) (w : Wallet)
    (n : String) (amount : Int) (op : String)
    (hpre : ∀ x ∈ pre, x.name ≠ n) (hw : w.name = n) :
    update_balance (pre ++ w :: post) n amount op =
      pre ++ ({ w with balance := apply_op op w.balance amount }) :: post :=
  update_balance_decomp pre post w n amount op hpre hw

/-- Witness for claim C7: a non-matching record before the match and a
second matching record after it are both left unchanged. -/
theorem update_first_match_only_witness :
    update_balance [⟨"Bob", "a1", 5⟩, ⟨"Ann", "a2", 10⟩, ⟨"Ann", "a3", 7⟩]
        "Ann" 3 "add" =
      [⟨"Bob", "a1", 5⟩, ⟨"Ann", "a2", 13⟩, ⟨"Ann", "a3", 7⟩] :=
  (update_first_match_only [⟨"Bob", "a1", 5⟩] [⟨"Ann", "a3", 7⟩]
    ⟨"Ann", "a2", 10⟩ "Ann" 3 "add" (by decide) rfl).trans (by decide)

/-- Claim C9: no `update_balance` call ever deletes a record or changes a
name or address: the projection of the collection to (name, address) pairs is
invariant under any update. -/
theorem update_preserves_names_addresses (wallets : List Wallet) (n : String)
    (amount : Int) (op : String) :
    (update_balance wallets n amount op).map (fun w => (w.name, w.address)) =
      wallets.map (fun w => (w.name, w.address)) := by
  unfold update_balance update_balance_full
  cases h : name_exists wallets n with
  | false => simp
  | true =>
      cases hscan : upd_scan wallets n amount op with
      | none => simp
      | some p =>
          obtain ⟨pn, pb⟩ := p
          simp [write_balance_map]

/-- Claim C10: an `update_balance` call with an op that is neither `"add"`
nor `"subtract"` still issues a `write_balance` call for the first matching
record, writing back its unchanged pre-call balance; the persisted collection
is unchanged and no error or rejection of the unknown op is produced. -/
theorem unknown_op_writes_unchanged (pre post : List Wallet) (w : Wallet)
    (n : String) (amount : Int) (op : String)
    (hpre : ∀ x ∈ pre, x.name ≠ n) (hw : w.name = n)
    (h1 : op ≠ "add") (h2 : op ≠ "subtract") :
    update_balance_full (pre ++ w :: post) n amount op =
      ⟨pre ++ w :: post, some (n, w.balance), none⟩ := by
  rw [update_balance_full_decomp pre post w n amount op hpre hw,
      apply_op_other op w.balance amount h1 h2]

/-- Witness for claim C10 at the unknown op `"multiply"`. -/
theorem unknown_op_writes_unchanged_witness :
    update_balance_full [⟨"Ann", "a", 7⟩] "Ann" 5 "multiply" =
      ⟨[⟨"Ann", "a", 7⟩], some ("Ann", 7), none⟩ :=
  unknown_op_writes_unchanged [] [] ⟨"Ann", "a", 7⟩ "Ann" 5 "multiply"
    (by decide) rfl (by decide) (by decide)

/-- The 130-character all-zeros address used by the repository test
`test_get_wallet_address`. -/
def bingo_address : String := String.mk (List.replicate 130 (Char.ofNat 48))

set_option maxRecDepth 8192 in
/-- Claim C3 counterexample: inserting the record
`(name Bingo, address of 130 zero characters, balance 100)` and looking the
address up does NOT return the address byte-for-byte — `get_wallet_address`
appends the serde_json rendering of the address value, which carries the
surrounding double quotes (the repository test itself asserts length 132). -/
theorem address_roundtrip_cex :
    bingo_address.length = 130 ∧
    get_wallet_address [⟨"Bingo", bingo_address, 100⟩] "Bingo" ≠
      some bingo_address := by
  decide

/-- Claim C3 (amended): for a collection whose unique record with name N has
address A, `lookup_address(location, N)` returns the serde_json rendering of
A — A escaped and wrapped in double quotes — rather than A itself; for the
Bingo record with a 130-character address the result has length 132. -/
theorem lookup_address_json_rendered (pre post : List Wallet) (w : Wallet)
    (n : String) (hpre : ∀ x ∈ pre, x.name ≠ n)
    (hpost : ∀ x ∈ post, x.name ≠ n) (hw : w.name = n) :
    get_wallet_address (pre ++ w :: post) n = some (json_render w.address) := by
  rw [get_wallet_address_eq _ _ (name_exists_decomp pre post w n hw),
      addrs_concat_append, addrs_concat_no_match pre n hpre]
  simp [addrs_concat, hw, addrs_concat_no_match post n hpost,
    String.empty_append, String.append_empty]

set_option maxRecDepth 8192 in
/-- Witness for the amended claim C3 at the Bingo record of the repository
test: the returned string is the quoted address, of length 132. -/
theorem lookup_address_json_rendered_witness :
    get_wallet_address [⟨"Bingo", bingo_address, 100⟩] "Bingo" =
      some (json_render bingo_address) ∧
    (json_render bingo_address).length = 132 :=
  ⟨lookup_address_json_rendered [] [] ⟨"Bingo", bingo_address, 100⟩ "Bingo"
      (by decide) (by decide) rfl,
    by decide⟩

/-- Claim C4 counterexample: with two records sharing name Ann, balances 1
and 2 and addresses "a" and "b", `lookup_balance` does return the first
balance, but `lookup_address` does not return the second address "b" — it
returns the concatenation of the quoted renderings of both addresses. -/
theorem duplicate_address_cex :
    get_balance [⟨"Ann", "a", 1⟩, ⟨"Ann", "b", 2⟩] "Ann" = some 1 ∧
    get_wallet_address [⟨"Ann", "a", 1⟩, ⟨"Ann", "b", 2⟩] "Ann" ≠
      some "b" := by
  decide

/-- Claim C4 (amended): with exactly two records sharing name N,
`lookup_balance` returns the first balance B1 (first match wins), while
`lookup_address` returns the concatenation, in scan order, of the serde_json
renderings of both addresses — not the bare second address. -/
theorem duplicate_scan_policy (pre mid post : List Wallet) (w1 w2 : Wallet)
    (n : String) (hpre : ∀ x ∈ pre, x.name ≠ n)
    (hmid : ∀ x ∈ mid, x.name ≠ n) (hpost : ∀ x ∈ post, x.name ≠ n)
    (h1 : w1.name = n) (h2 : w2.name = n) :
    get_balance (pre ++ w1 :: (mid ++ w2 :: post)) n = some w1.balance ∧
    get_wallet_address (pre ++ w1 :: (mid ++ w2 :: post)) n =
      some (json_render w1.address ++ json_render w2.address) := by
  refine ⟨get_balance_decomp pre (mid ++ w2 :: post) w1 n hpre h1, ?_⟩
  rw [get_wallet_address_eq _ _
        (name_exists_decomp pre (mid ++ w2 :: post) w1 n h1),
      addrs_concat_append, addrs_concat_no_match pre n hpre]
  simp only [addrs_concat, h1, if_pos, addrs_concat_append,
    addrs_concat_no_match mid n hmid, addrs_concat_no_match post n hpost, h2,
    if_true, String.empty_append, String.append_empty]

/-- Witness for the amended claim C4 at the two-record collection of the
counterexample. -/
theorem duplicate_scan_policy_witness :
    get_balance [⟨"Ann", "a", 1⟩, ⟨"Ann", "b", 2⟩] "Ann" = some 1 ∧
    get_wallet_address [⟨"Ann", "a", 1⟩, ⟨"Ann", "b", 2⟩] "Ann" =
      some (json_render "a" ++ json_render "b") :=
  duplicate_scan_policy [] [] [] ⟨"Ann", "a", 1⟩ ⟨"Ann", "b", 2⟩ "Ann"
    (by decide) (by decide) (by decide) rfl rfl

/-- Claim C1 counterexample: crediting `i64::MAX` to a record with balance 1
does not yield `B + amt` — the `i64` addition wraps around, so the looked-up
balance is `i64::MIN` instead of `2 ^ 63`. -/
theorem credit_overflow_cex :
    get_balance (update_balance [⟨"Ann", "a", 1⟩] "Ann"
        9223372036854775807 "add") "Ann" ≠
      some (1 + 9223372036854775807) := by
  decide

/-- Claim C1 (amended): for a collection whose unique record with name N has
an i64-representable balance B, and an amount such that `B + amt` and
`B - amt` are i64-representable, a credit followed by a lookup yields
`B + amt`, a debit yields `B - amt`, and a credit followed by a debit of the
same amount restores the balance to B. -/
theorem update_then_lookup_balance (pre post : List Wallet) (w : Wallet)
    (n : String) (amount : Int)
    (hpre : ∀ x ∈ pre, x.name ≠ n) (hpost : ∀ x ∈ post, x.name ≠ n)
    (hw : w.name = n) (hB : in_i64 w.balance)
    (hadd : in_i64 (w.balance + amount)) (hsub : in_i64 (w.balance - amount)) :
    get_balance (update_balance (pre ++ w :: post) n amount "add") n =
      some (w.balance + amount) ∧
    get_balance (update_balance (pre ++ w :: post) n amount "subtract") n =
      some (w.balance - amount) ∧
    get_balance (update_balance
        (update_balance (pre ++ w :: post) n amount "add") n amount
        "subtract") n =
      some w.balance := by
  have hadd_name : ({ w with balance := apply_op "add" w.balance amount }).name = n := hw
  have hsub_name : ({ w with balance := apply_op "subtract" w.balance amount }).name = n := hw
  refine ⟨?_, ?_, ?_⟩
  · rw [update_balance_decomp pre post w n amount "add" hpre hw,
        get_balance_decomp pre post _ n hpre hadd_name]
    simp [apply_op_add, wrap64_eq_self _ hadd]
  · rw [update_balance_decomp pre post w n amount "subtract" hpre hw,
        get_balance_decomp pre post _ n hpre hsub_name]
    simp [apply_op_sub, wrap64_eq_self _ hsub]
  · rw [update_balance_decomp pre post w n amount "add" hpre hw,
        update_balance_decomp pre post _ n amount "subtract" hpre hadd_name]
    have hname2 : ({ { w with balance := apply_op "add" w.balance amount } with
        balance := apply_op "subtract"
          ({ w with balance := apply_op "add" w.balance amount }).balance
          amount }).name = n := hw
    rw [get_balance_decomp pre post _ n hpre hname2]
    simp [apply_op_add, apply_op_sub, wrap64_sub_shift, add_sub_cancel_right,
      wrap64_eq_self _ hB]

/-- Witness for the amended claim C1: credit 30 then debit 30 on balance
100. -/
theorem update_then_lookup_balance_witness :
    get_balance (update_balance [⟨"Ann", "a", 100⟩] "Ann" 30 "add") "Ann" =
      some 130 ∧
    get_balance (update_balance [⟨"Ann", "a", 100⟩] "Ann" 30 "subtract")
        "Ann" = some 70 ∧
    get_balance (update_balance
        (update_balance [⟨"Ann", "a", 100⟩] "Ann" 30 "add") "Ann" 30
        "subtract") "Ann" = some 100 :=
  update_then_lookup_balance [] [] ⟨"Ann", "a", 100⟩ "Ann" 30
    (by decide) (by decide) rfl (by decide) (by decide) (by decide)

/-- Claim C8 counterexample: debiting `i64::MAX` from balance `-2147483648`
(an amount larger than the balance) does not produce the exact negative
integer `B - amt` — the `i64` subtraction wraps around to a positive value. -/
theorem debit_underflow_cex :
    get_balance (update_balance [⟨"Ann", "a", -2147483648⟩] "Ann"
        9223372036854775807 "subtract") "Ann" ≠
      some (-2147483648 - 9223372036854775807) := by
  decide

/-- Claim C8 (amended): debiting an amount larger than the current balance of
the first record with name N succeeds without error and, provided `B - amt`
is i64-representable, persists the exact negative balance `B - amt`; no floor
check is applied. -/
theorem debit_negative_balance (pre post : List Wallet) (w : Wallet)
    (n : String) (amount : Int) (hpre : ∀ x ∈ pre, x.name ≠ n)
    (hw : w.name = n) (hgt : w.balance < amount)
    (hsub : in_i64 (w.balance - amount)) :
    get_balance (update_balance (pre ++ w :: post) n amount "subtract") n =
      some (w.balance - amount) ∧
    w.balance - amount < 0 := by
  have hsub_name : ({ w with balance := apply_op "subtract" w.balance amount }).name = n := hw
  constructor
  · rw [update_balance_decomp pre post w n amount "subtract" hpre hw,
        get_balance_decomp pre post _ n hpre hsub_name]
    simp [apply_op_sub, wrap64_eq_self _ hsub]
  · omega

/-- Witness for the amended claim C8: debiting 25 from balance 10 leaves
-15. -/
theorem debit_negative_balance_witness :
    get_balance (update_balance [⟨"Ann", "a", 10⟩] "Ann" 25 "subtract")
        "Ann" = some (-15) ∧
    (10 : Int) - 25 < 0 :=
  debit_negative_balance [] [] ⟨"Ann", "a", 10⟩ "Ann" 25
    (by decide) rfl (by decide) (by decide)

end Mockchain
